import Mathlib

/-!
Verification development for the api-fipe part-price aggregation engine
(`src/app.py`).  The Python code is shallowly embedded: prices are exact
rationals, the product-search provider and the FIPE reference provider are
oracles passed as arguments, and the `/pecas` request loop is modelled as a
pure function of those oracles.
-/

namespace ApiFipe

/-! ### Python string primitives -/

/-- Characters of `s` with leading and trailing whitespace removed,
modelling Python `str.strip()`. -/
def stripCh (l : List Char) : List Char :=
  ((l.dropWhile Char.isWhitespace).reverse.dropWhile Char.isWhitespace).reverse

/-- Python `s.strip()`. -/
def pyStrip (s : String) : String := ⟨stripCh s.data⟩

/-- Python `s.lower()` (ASCII letters; the inputs exercised here are ASCII). -/
def pyLower (s : String) : String := ⟨s.data.map Char.toLower⟩

/-- `leadsWith s p` is true when `s` starts with the pattern `p`. -/
def leadsWith : List Char → List Char → Bool
  | _, [] => true
  | [], _ :: _ => false
  | a :: as, b :: bs => a == b && leadsWith as bs

/-- Python `s.startswith(p)`. -/
def pyStartsWith (s p : String) : Bool := leadsWith s.data p.data

/-- `occursIn s sub` is true when `sub` occurs contiguously inside `s`. -/
def occursIn : List Char → List Char → Bool
  | [], sub => sub.isEmpty
  | a :: rest, sub => leadsWith (a :: rest) sub || occursIn rest sub

/-- Python `sub in s`. -/
def pyContains (s sub : String) : Bool := occursIn s.data sub.data

/-- Whitespace split accumulating the current (reversed) word, modelling
Python `str.split()` with no argument: runs of whitespace separate words and
empty words are dropped. -/
def splitWsAux : List Char → List Char → List String
  | [], acc => if acc.isEmpty then [] else [⟨acc.reverse⟩]
  | c :: r, acc =>
    if c.isWhitespace then
      if acc.isEmpty then splitWsAux r [] else ⟨acc.reverse⟩ :: splitWsAux r []
    else splitWsAux r (c :: acc)

/-- Python `s.split()`. -/
def pySplit (s : String) : List String := splitWsAux s.data []

/-- Split a character list at every occurrence of `sep`, modelling Python
`s.split(sep)` for a one-character separator (`","` and `"."` in the code). -/
def splitChar (sep : Char) : List Char → List (List Char)
  | [] => [[]]
  | c :: rest =>
    if c = sep then [] :: splitChar sep rest
    else
      match splitChar sep rest with
      | [] => [[c]]
      | l :: ls => (c :: l) :: ls

/-- Python `" ".join(words)`. -/
def joinSpace : List String → String
  | [] => ""
  | [w] => w
  | w :: ws => w ++ " " ++ joinSpace ws

/-- Python `s.replace("  ", " ")`: one left-to-right pass replacing each
non-overlapping double space by a single space (app.py line 539). -/
def replacePairSpace : List Char → List Char
  | ' ' :: ' ' :: rest => ' ' :: replacePairSpace rest
  | c :: rest => c :: replacePairSpace rest
  | [] => []

/-- `modelo_nome = modelo.replace("  ", " ").strip()` (app.py line 539). -/
def modelo_nome_of (modelo : String) : String := pyStrip ⟨replacePairSpace modelo.data⟩

/-- Python `ano.split('-')[0]` (app.py line 653): the prefix of `ano` up to
the first dash, or all of `ano` when there is no dash. -/
def base_ano_of (ano : String) : String := ⟨(splitChar '-' ano.data).headD []⟩

/-- `[p.strip() for p in pecas.split(",") if p.strip()]` (app.py line 538). -/
def lista_pecas_of (pecas : String) : List String :=
  ((splitChar ',' pecas.data).map (fun l => pyStrip ⟨l⟩)).filter (fun s => s ≠ "")

/-! ### Numeric parsing and rounding -/

/-- Decimal digits to a natural number. -/
def digitsToNat (l : List Char) : ℕ :=
  l.foldl (fun acc c => 10 * acc + (c.toNat - 48)) 0

/-- All characters are decimal digits. -/
def allDigits (l : List Char) : Bool := l.all (fun c => c.isDigit)

/-- Syntactic stage of Python `float(s)` on plain decimal literals (the only
shape the price strings here take): optional surrounding whitespace, optional
sign, digits with at most one `.` and at least one digit.  Returns
`(negative?, value of the digit string with the dot removed, number of
fractional digits)`; anything else raises in Python, modelled as `none`. -/
def pyFloatParts (s : String) : Option (Bool × ℕ × ℕ) :=
  let t := stripCh s.data
  let signAndRest : Bool × List Char :=
    match t with
    | '-' :: r => (true, r)
    | '+' :: r => (false, r)
    | r => (false, r)
  match splitChar '.' signAndRest.2 with
  | [a] =>
    if a.isEmpty then none
    else if allDigits a then some (signAndRest.1, digitsToNat a, 0) else none
  | [a, b] =>
    if a.isEmpty && b.isEmpty then none
    else if allDigits a && allDigits b then
      some (signAndRest.1, digitsToNat (a ++ b), b.length)
    else none
  | _ => none

/-- Numeric interpretation of `pyFloatParts`: `±(n / 10 ^ k)`. -/
def decValue (neg : Bool) (n k : ℕ) : ℚ :=
  (if neg then -1 else 1) * (n : ℚ) / (10 : ℚ) ^ k

/-- Python `float(s)` on plain decimal literals, as an exact rational. -/
def pyFloat (s : String) : Option ℚ :=
  (pyFloatParts s).map (fun p => decValue p.1 p.2.1 p.2.2)

/-- Replace every `,` by `.`, modelling `str(price).replace(",", ".")`
(app.py line 172). -/
def replaceComma (s : String) : String :=
  ⟨s.data.map (fun c => if c = ',' then '.' else c)⟩

/-- Python `round(x, 2)` on exact values: scale by 100, round half to even,
scale back.  (Python rounds the binary double nearest to `x`; the claims
only exercise values where the exact and double-based results agree.) -/
def pyRound2 (x : ℚ) : ℚ :=
  ((if x * 100 - (⌊x * 100⌋ : ℚ) < 1 / 2 then ⌊x * 100⌋
    else if 1 / 2 < x * 100 - (⌊x * 100⌋ : ℚ) then ⌊x * 100⌋ + 1
    else if ⌊x * 100⌋ % 2 = 0 then ⌊x * 100⌋ else ⌊x * 100⌋ + 1 : ℤ) : ℚ) / 100

/-! ### Product search client (`buscar_pecas_shopee`, app.py lines 162-180) -/

/-- One raw listing of the Shopee `productOfferV2` response (app.py lines
84-98).  `offerLink` is optional because the provider may return `null`. -/
structure ShopeeNode where
  productName : String
  price : String
  imageUrl : String
  offerLink : Option String
  productLink : String
  shopName : String
deriving DecidableEq

/-- One card built by `buscar_pecas_shopee` (app.py lines 170-176). -/
structure Card where
  titulo : String
  preco : ℚ
  imagem : String
  link : String
  loja : String
deriving DecidableEq

/-- `link = it.get("offerLink") or it.get("productLink")` (app.py line 169):
Python `or` falls through on `None` and on the empty string. -/
def nodeLink (n : ShopeeNode) : String :=
  match n.offerLink with
  | some l => if l = "" then n.productLink else l
  | none => n.productLink

/-- `float(str(it["price"]).replace(",", "."))` (app.py line 172). -/
def parse_preco_shopee (raw : String) : Option ℚ :=
  pyFloat (replaceComma raw)

/-- The card-building loop of `buscar_pecas_shopee` (app.py lines 167-176).
A `ValueError` from `float` anywhere in the loop aborts it, so the result is
all cards or `none`. -/
def buildCards : List ShopeeNode → Option (List Card)
  | [] => some []
  | n :: rest =>
    match parse_preco_shopee n.price, buildCards rest with
    | some p, some cs =>
      some (⟨n.productName, p, n.imageUrl, nodeLink n, n.shopName⟩ :: cs)
    | _, _ => none

/-- `buscar_pecas_shopee` (app.py lines 162-180): the provider response is an
`Except` (transport errors, GraphQL errors and missing credentials all raise);
the function-level `try/except` turns ANY failure — including a single bad
price inside the loop — into the empty candidate list.  The `page`/`limit`
parameters of the Python function are unused by its body and are omitted. -/
def buscar_pecas_shopee : Except String (List ShopeeNode) → List Card
  | .error _ => []
  | .ok nodes => (buildCards nodes).getD []

/-- The search function available to the `/pecas` loop, given a provider
oracle: one Shopee round trip per keyword. -/
def searchOf (provider : String → Except String (List ShopeeNode)) (kw : String) : List Card :=
  buscar_pecas_shopee (provider kw)

/-! ### Keyword normalization (app.py lines 101-123) -/

/-- `PLURAL_TO_SINGULAR.get(lowered, word)` (app.py lines 102-109): table
lookup on the lowercased word, returning the original word on a miss. -/
def toSingularWord (w : String) : String :=
  let l := pyLower w
  if l = "pastilhas" then "pastilha"
  else if l = "discos" then "disco"
  else if l = "filtros" then "filtro"
  else if l = "freios" then "freio"
  else if l = "amortecedores" then "amortecedor"
  else if l = "retrovisores" then "retrovisor"
  else w

/-- `_to_singular_words` (app.py lines 117-123). -/
def to_singular_words (pieceText : String) : String :=
  joinSpace ((pySplit pieceText).map toSingularWord)

/-- The kit-stripping helper of app.py lines 111-115 (named
`_remove_kit_` + `prefix` there): strip, then drop a leading `"kit "`
case-insensitively and strip again. -/
def stripKit (pieceText : String) : String :=
  let text := pyStrip pieceText
  if pyStartsWith (pyLower text) "kit " then pyStrip ⟨text.data.drop 4⟩ else text

/-! ### Keyword fallback ladder (app.py lines 645-673) -/

/-- The ordered keyword attempts built for one part (app.py lines 645-673).
Tire parts (label starting `"kit pneus"` case-insensitively) search with the
bare label; other parts combine the label, its kit-stripped form and its
singularized form with the model's first word and the base year.  When the
model name has no first word the Python code raises `IndexError` (caught by
the endpoint-level handler); theorems about this function assume the model
has a first word and we model the first word of an empty model as `""`. -/
def modelo_basico_of (modeloNome : String) : String := (pySplit modeloNome).headD ""

def keywords_tentativas (peca modeloNome ano : String) : List String :=
  if pyStartsWith (pyLower peca) "kit pneus" then [peca]
  else
    (([peca ++ " " ++ modelo_basico_of modeloNome ++ " " ++ base_ano_of ano,
       peca ++ " " ++ modelo_basico_of modeloNome]
      ++ (if stripKit peca ≠ peca then
            [stripKit peca ++ " " ++ modelo_basico_of modeloNome ++ " " ++ base_ano_of ano,
             stripKit peca ++ " " ++ modelo_basico_of modeloNome]
          else []))
      ++ (if to_singular_words (stripKit peca) ≠ peca ∧
            to_singular_words (stripKit peca) ≠ stripKit peca then
            [to_singular_words (stripKit peca) ++ " " ++ modelo_basico_of modeloNome ++ " " ++
               base_ano_of ano,
             to_singular_words (stripKit peca) ++ " " ++ modelo_basico_of modeloNome]
          else [])).take 6

/-- The fallback traversal (app.py lines 677-692): try each keyword in order,
stop at the first one returning candidates.  Returns the candidates of the
first hit (or `[]`) together with the list of keywords actually sent to the
provider, in order. -/
def tryKeywords (search : String → List Card) : List String → List Card × List String
  | [] => ([], [])
  | kw :: rest =>
    if search kw = [] then
      ((tryKeywords search rest).1, kw :: (tryKeywords search rest).2)
    else (search kw, [kw])

/-! ### Per-part report and aggregation (app.py lines 640-727) -/

/-- One entry of `relatorio` (app.py lines 701-714). -/
structure Report where
  item : String
  preco_medio : ℚ
  abatido : ℚ
  cards : List Card
deriving DecidableEq

/-- The surviving candidates for one part: result of the fallback traversal
(app.py line 682).  No filtering of any kind happens afterwards. -/
def cardsForPart (search : String → List Card) (modeloNome ano peca : String) : List Card :=
  (tryKeywords search (keywords_tentativas peca modeloNome ano)).1

/-- `preco_medio = sum(card["preco"] for card in cards) / len(cards)`
(app.py line 697), and the implicit 0 contribution of a part with no cards. -/
def precoMedioPart (search : String → List Card) (modeloNome ano peca : String) : ℚ :=
  if cardsForPart search modeloNome ano peca = [] then 0
  else ((cardsForPart search modeloNome ano peca).map Card.preco).sum /
    ((cardsForPart search modeloNome ano peca).length : ℚ)

/-- The report appended for one part (app.py lines 696-714): rounded mean
twice (as `preco_medio` and `abatido`) plus the first 3 cards, or the
all-zero report when no keyword produced candidates. -/
def reportForPart (search : String → List Card) (modeloNome ano peca : String) : Report :=
  if cardsForPart search modeloNome ano peca = [] then ⟨peca, 0, 0, []⟩
  else
    ⟨peca, pyRound2 (precoMedioPart search modeloNome ano peca),
      pyRound2 (precoMedioPart search modeloNome ano peca),
      (cardsForPart search modeloNome ano peca).take 3⟩

/-- The `relatorio` list built by the part loop (app.py lines 640-715): one
report per requested part, in request order. -/
def relatorio (search : String → List Card) (modeloNome ano : String)
    (pecas : List String) : List Report :=
  pecas.map (reportForPart search modeloNome ano)

/-- `total_pecas` accumulated by the loop (app.py line 698): the UNROUNDED
mean of each successful part, 0 for failed parts. -/
def total_pecas (search : String → List Card) (modeloNome ano : String)
    (pecas : List String) : ℚ :=
  (pecas.map (precoMedioPart search modeloNome ano)).sum

/-- Concatenation of per-part query logs. -/
def concatAll : List (List String) → List String
  | [] => []
  | l :: ls => l ++ concatAll ls

/-- Every keyword sent to the Shopee provider during the part loop, in
order.  The loop consults no cache, so this list is the same on every
invocation with the same inputs. -/
def queriedAll (search : String → List Card) (modeloNome ano : String)
    (pecas : List String) : List String :=
  concatAll (pecas.map (fun p => (tryKeywords search (keywords_tentativas p modeloNome ano)).2))

/-! ### The single cache and the `/pecas` endpoint (app.py lines 183, 517-741) -/

/-- `maxsize` of the single `TTLCache` (app.py line 183). -/
def cache_maxsize : ℕ := 100

/-- `ttl` in seconds of the single `TTLCache` (app.py line 183). -/
def cache_ttl : ℕ := 3600

/-- The single process-wide cache, modelled within one TTL window and under
capacity: an association list from FIPE cache keys to prices.  The code has
no other cache; in particular part-search results are never stored here. -/
structure FipeCache where
  entries : List (String × ℚ)
deriving DecidableEq

/-- The FIPE-value lookup of app.py lines 542-571: on a hit return the cached
value, on a miss call the reference provider and insert.  The returned flag
records whether a network call was made. -/
def fipe_lookup (fipeProvider : ℚ) (c : FipeCache) (key : String) : ℚ × FipeCache × Bool :=
  match c.entries.lookup key with
  | some v => (v, c, false)
  | none => (fipeProvider, ⟨(key, fipeProvider) :: c.entries⟩, true)

/-- The observable outcome of one `/pecas` invocation that the claims are
about (app.py lines 517-738). -/
structure EndpointRun where
  valor_fipe : ℚ
  fipe_network_call : Bool
  relatorio_detalhado : List Report
  total_pecas : ℚ
  search_calls : List String
deriving DecidableEq

/-- One `/pecas` invocation with a nonempty part list (app.py lines 517-738):
parse the part list, look the FIPE value up through the cache (app.py lines
542-571), run the part loop (app.py lines 640-715).  `fipeProvider` and
`search` are the two network oracles; the part loop touches no cache. -/
def pecas_endpoint (fipeProvider : ℚ) (search : String → List Card) (c : FipeCache)
    (fipe_code : Option String) (modelo ano pecas : String) : EndpointRun × FipeCache :=
  let lp := lista_pecas_of pecas
  let mn := modelo_nome_of modelo
  match fipe_code with
  | none =>
    (⟨0, false, relatorio search mn ano lp, total_pecas search mn ano lp,
      queriedAll search mn ano lp⟩, c)
  | some code =>
    let r := fipe_lookup fipeProvider c (code ++ "-" ++ ano)
    (⟨r.1, r.2.2, relatorio search mn ano lp, total_pecas search mn ano lp,
      queriedAll search mn ano lp⟩, r.2.1)

/-! ### Trim selection in `buscar_medida_pneu` (app.py lines 425-471) -/

/-- `len(set(a.split()) & set(b.split()))` (app.py lines 462-464): number of
distinct whitespace tokens of `a` that also occur in `b`. -/
def tokenInter (a b : String) : ℕ :=
  (((pySplit a).dedup).filter (fun w => (pySplit b).contains w)).length

/-- Fuzzy score of one candidate trim against the hint (app.py line 464):
the candidate label is lowercased first (app.py line 455). -/
def scoreOf (hint t : String) : ℕ := tokenInter hint (pyLower t)

/-- The largest fuzzy score among the candidates. -/
def maxScore (hint : String) (cands : List String) : ℕ :=
  (cands.map (scoreOf hint)).foldr max 0

/-- The candidate loop of app.py lines 454-468, carrying
(`veiculo_correto`, `melhor_match`, `melhor_pontuacao`): break on the first
exact (lowercased) match when a hint is present, otherwise remember the first
strict improvement of the fuzzy score. -/
def selectTrimLoop (hint : String) :
    List String → Option String → ℕ → Option String × Option String × ℕ
  | [], best, sc => (none, best, sc)
  | t :: rest, best, sc =>
    if hint ≠ "" ∧ pyLower t = hint then (some t, best, sc)
    else if hint ≠ "" ∧ sc < scoreOf hint t then
      selectTrimLoop hint rest (some t) (scoreOf hint t)
    else selectTrimLoop hint rest best sc

/-- Trim selection of `buscar_medida_pneu` (app.py lines 449-471): the exact
match if the loop found one, else the best fuzzy match, else the first
candidate (`melhor_match or (data['data'][0] if data['data'] else None)`).
The hint is `trim_nome = modelo.lower().strip()` (app.py line 430). -/
def selectTrim (hint : String) (cands : List String) : Option String :=
  match selectTrimLoop hint cands none 0 with
  | (some v, _, _) => some v
  | (none, some b, _) => some b
  | (none, none, _) => cands.head?

/-! ### Concrete fixtures used by counterexamples and witnesses -/

/-- A listing whose price string uses a thousands separator. -/
def nodeBadC1 : ShopeeNode := ⟨"Pneu Aro 15", "1.234,56", "img1", some "off1", "prod1", "loja1"⟩

/-- A listing with a plain locale price. -/
def nodeGoodC1 : ShopeeNode := ⟨"Pastilha de freio", "50,00", "img2", none, "prod2", "loja2"⟩

/-- A listing with price zero (a non-positive value). -/
def nodeZeroC1 : ShopeeNode := ⟨"Brinde", "0", "img3", none, "prod3", "loja3"⟩

def cardC2a : Card := ⟨"pastilha dianteira", 1, "i", "l", "s"⟩

def cardC2b : Card := ⟨"pastilha traseira", 5, "i", "l", "s"⟩

/-- Provider returning four candidates for the most specific keyword. -/
def oracleC2 : String → List Card := fun kw =>
  if kw = "pastilha de freio Argo 2022" then [cardC2a, cardC2a, cardC2a, cardC2b] else []

/-- A candidate whose title mentions neither the part nor the model. -/
def cardC3 : Card := ⟨"Produto Generico Premium", 10, "i", "l", "s"⟩

def oracleC3 : String → List Card := fun kw =>
  if kw = "pastilha de freio Argo 2022" then [cardC3] else []

def cardC5a : Card := ⟨"pastilha x", 1, "i", "l", "s"⟩

def cardC5b : Card := ⟨"pastilha y", 2, "i", "l", "s"⟩

/-- Provider returning three candidates whose mean has repeating decimals. -/
def oracleC5 : String → List Card := fun kw =>
  if kw = "pastilha de freio Argo 2022" then [cardC5a, cardC5a, cardC5b] else []

def cardC6 : Card := ⟨"pastilha de freio bosch argo", 80, "i", "l", "s"⟩

def oracleC6 : String → List Card := fun kw =>
  if kw = "pastilha de freio Argo 2022" then [cardC6] else []

/-! ### Helper lemmas -/

lemma pyRound2_exact (x : ℚ) (n : ℤ) (h1 : (n : ℚ) ≤ x * 100) (h2 : x * 100 < n + 1)
    (h3 : x * 100 - (n : ℚ) < 1 / 2) : pyRound2 x = (n : ℚ) / 100 := by
  have hfl : ⌊x * 100⌋ = n := Int.floor_eq_iff.mpr ⟨h1, by exact_mod_cast h2⟩
  rw [pyRound2, hfl, if_pos h3]

lemma tryKeywords_queried (search : String → List Card) (kws : List String) :
    (tryKeywords search kws).2 =
      kws.takeWhile (fun k => decide (search k = [])) ++
      (kws.dropWhile (fun k => decide (search k = []))).take 1 := by
  induction kws with
  | nil => simp [tryKeywords]
  | cons kw rest ih =>
    by_cases h : search kw = []
    · simp [tryKeywords, h, ih]
    · simp [tryKeywords, h]

lemma tryKeywords_cards (search : String → List Card) (kws : List String) :
    (tryKeywords search kws).1 =
      (((kws.dropWhile (fun k => decide (search k = []))).head?).map search).getD [] := by
  induction kws with
  | nil => simp [tryKeywords]
  | cons kw rest ih =>
    by_cases h : search kw = []
    · simp [tryKeywords, h, ih]
    · simp [tryKeywords, h]

lemma fipe_lookup_after (fp fp2 : ℚ) (c : FipeCache) (k : String) :
    (fipe_lookup fp2 (fipe_lookup fp c k).2.1 k).2.2 = false := by
  rw [fipe_lookup]
  cases h : c.entries.lookup k with
  | some v => simp [fipe_lookup, h]
  | none => simp [fipe_lookup, h, List.lookup]

/-! ### Claim C1 -/

/-- Claim C1 is false on the code: the price conversion is only
`float(str(price).replace(",", "."))`, so the thousands-separated
`"1.234,56"` does not parse to 1234.56 — it raises, and the function-level
handler then discards the ENTIRE candidate list of the search, not only the
failing candidate. -/
theorem C1_counterexample :
    parse_preco_shopee "1.234,56" = none ∧
    buscar_pecas_shopee (Except.ok [nodeBadC1, nodeGoodC1]) = [] := by
  constructor
  · decide
  · decide

/-- Claim C1 amended: the converter only replaces `,` by `.` and parses a
float; `"50,00"` parses to 50 but `"1.234,56"`, `""` and `"abc"` fail; a
single failing candidate empties the whole candidate list of that search
(other candidates of the SAME search are lost, not kept); transport errors
also yield the empty list; no positive-range check exists (price `"0"` is
parsed and kept). -/
theorem C1_amended :
    parse_preco_shopee "50,00" = some 50 ∧
    parse_preco_shopee "" = none ∧
    parse_preco_shopee "abc" = none ∧
    parse_preco_shopee "1.234,56" = none ∧
    buscar_pecas_shopee (Except.ok [nodeGoodC1]) =
      [⟨"Pastilha de freio", 50, "img2", "prod2", "loja2"⟩] ∧
    buscar_pecas_shopee (Except.ok [nodeBadC1, nodeGoodC1]) = [] ∧
    buscar_pecas_shopee (Except.error "timeout") = [] ∧
    buscar_pecas_shopee (Except.ok [nodeZeroC1]) = [⟨"Brinde", 0, "img3", "prod3", "loja3"⟩] := by
  have h50 : pyFloatParts (replaceComma "50,00") = some (false, 5000, 2) := by decide
  have hp50 : parse_preco_shopee "50,00" = some 50 := by
    rw [parse_preco_shopee, pyFloat, h50]
    simp only [Option.map_some']
    norm_num [decValue]
  have h0 : pyFloatParts (replaceComma "0") = some (false, 0, 0) := by decide
  have hp0 : parse_preco_shopee "0" = some 0 := by
    rw [parse_preco_shopee, pyFloat, h0]
    simp only [Option.map_some']
    norm_num [decValue]
  refine ⟨hp50, by decide, by decide, by decide, ?_, by decide, by decide, ?_⟩
  · show (buildCards [nodeGoodC1]).getD [] = _
    simp only [buildCards, nodeGoodC1, hp50, nodeLink]
    rfl
  · show (buildCards [nodeZeroC1]).getD [] = _
    simp only [buildCards, nodeZeroC1, hp0, nodeLink]
    rfl

/-! ### Claim C2 -/

/-- Claim C2 is false on the code: with four candidates priced 1, 1, 1, 5
the report's representative price is the mean of ALL four (= 2), not the
rounded mean of the first 3 (= 1). -/
theorem C2_counterexample :
    (reportForPart oracleC2 "Argo 1.0" "2022-1" "pastilha de freio").preco_medio ≠
      pyRound2 ((((cardsForPart oracleC2 "Argo 1.0" "2022-1" "pastilha de freio").take 3).map
          Card.preco).sum /
        (((cardsForPart oracleC2 "Argo 1.0" "2022-1" "pastilha de freio").take 3).length : ℚ)) := by
  have hc : cardsForPart oracleC2 "Argo 1.0" "2022-1" "pastilha de freio" =
      [cardC2a, cardC2a, cardC2a, cardC2b] := by decide
  have hne : cardsForPart oracleC2 "Argo 1.0" "2022-1" "pastilha de freio" ≠ [] := by decide
  have hpm : precoMedioPart oracleC2 "Argo 1.0" "2022-1" "pastilha de freio" = 2 := by
    rw [precoMedioPart, if_neg hne, hc]
    simp [cardC2a, cardC2b]
    norm_num
  have h2 : pyRound2 2 = 2 := by
    have := pyRound2_exact 2 200 (by norm_num) (by norm_num) (by norm_num)
    rw [this]; norm_num
  have h1 : pyRound2 1 = 1 := by
    have := pyRound2_exact 1 100 (by norm_num) (by norm_num) (by norm_num)
    rw [this]; norm_num
  rw [reportForPart, if_neg hne, hc]
  simp only [hpm, h2, List.take, List.map, List.sum_cons, List.sum_nil, List.length]
  simp only [cardC2a]
  norm_num [h1]

/-- Claim C2 amended: the representative price is the 2-decimal rounding of
the arithmetic mean of ALL surviving candidates (the first 3 are kept only
for display), and no quantity multiplier is ever applied — tire-like parts
are priced by the same formula. -/
theorem C2_amended (search : String → List Card) (modeloNome ano peca : String)
    (h : cardsForPart search modeloNome ano peca ≠ []) :
    (reportForPart search modeloNome ano peca).preco_medio =
      pyRound2 (((cardsForPart search modeloNome ano peca).map Card.preco).sum /
        ((cardsForPart search modeloNome ano peca).length : ℚ)) ∧
    (reportForPart search modeloNome ano peca).abatido =
      (reportForPart search modeloNome ano peca).preco_medio ∧
    (reportForPart search modeloNome ano peca).cards =
      (cardsForPart search modeloNome ano peca).take 3 := by
  rw [reportForPart, if_neg h, precoMedioPart, if_neg h]
  exact ⟨rfl, rfl, rfl⟩

/-- Witness for C2_amended at a concrete provider. -/
theorem C2_amended_witness :
    cardsForPart oracleC2 "Argo 1.0" "2022-1" "pastilha de freio" ≠ [] ∧
    (reportForPart oracleC2 "Argo 1.0" "2022-1" "pastilha de freio").preco_medio =
      pyRound2 (((cardsForPart oracleC2 "Argo 1.0" "2022-1" "pastilha de freio").map
          Card.preco).sum /
        ((cardsForPart oracleC2 "Argo 1.0" "2022-1" "pastilha de freio").length : ℚ)) :=
  ⟨by decide, (C2_amended oracleC2 "Argo 1.0" "2022-1" "pastilha de freio" (by decide)).1⟩

/-! ### Claim C3 -/

/-- Claim C3 is false on the code: there is no relevance filter at all.  A
candidate whose title contains neither the part keyword nor the model's
first token is kept as a supporting card and prices the part. -/
theorem C3_counterexample :
    pyContains (pyLower cardC3.titulo) (pyLower "pastilha de freio") = false ∧
    pyContains (pyLower cardC3.titulo) (pyLower "Argo") = false ∧
    (reportForPart oracleC3 "Argo 1.0" "2022-1" "pastilha de freio").cards = [cardC3] ∧
    (reportForPart oracleC3 "Argo 1.0" "2022-1" "pastilha de freio").preco_medio = 10 := by
  have hne : cardsForPart oracleC3 "Argo 1.0" "2022-1" "pastilha de freio" ≠ [] := by decide
  have hc : cardsForPart oracleC3 "Argo 1.0" "2022-1" "pastilha de freio" = [cardC3] := by decide
  have hpm : precoMedioPart oracleC3 "Argo 1.0" "2022-1" "pastilha de freio" = 10 := by
    rw [precoMedioPart, if_neg hne, hc]
    simp [cardC3]
  have h10 : pyRound2 10 = 10 := by
    have := pyRound2_exact 10 1000 (by norm_num) (by norm_num) (by norm_num)
    rw [this]; norm_num
  refine ⟨by decide, by decide, ?_, ?_⟩
  · rw [reportForPart, if_neg hne, hc]
    rfl
  · rw [reportForPart, if_neg hne]
    simp only [hpm, h10]

/-- Claim C3 amended: no candidate is ever discarded for its title — every
candidate returned by the first successful keyword contributes to the mean,
and the first three (whatever their titles) become the supporting cards;
this also holds for tire parts. -/
theorem C3_amended (search : String → List Card) (modeloNome ano peca : String)
    (h : cardsForPart search modeloNome ano peca ≠ []) :
    (∀ c ∈ cardsForPart search modeloNome ano peca,
      c ∈ (tryKeywords search (keywords_tentativas peca modeloNome ano)).1) ∧
    (reportForPart search modeloNome ano peca).cards =
      (cardsForPart search modeloNome ano peca).take 3 ∧
    precoMedioPart search modeloNome ano peca =
      ((cardsForPart search modeloNome ano peca).map Card.preco).sum /
        ((cardsForPart search modeloNome ano peca).length : ℚ) := by
  refine ⟨fun c hc => hc, ?_, ?_⟩
  · rw [reportForPart, if_neg h]
  · rw [precoMedioPart, if_neg h]

/-- Witness for C3_amended at a concrete provider. -/
theorem C3_amended_witness :
    cardsForPart oracleC3 "Argo 1.0" "2022-1" "pastilha de freio" ≠ [] ∧
    (reportForPart oracleC3 "Argo 1.0" "2022-1" "pastilha de freio").cards =
      (cardsForPart oracleC3 "Argo 1.0" "2022-1" "pastilha de freio").take 3 :=
  ⟨by decide, (C3_amended oracleC3 "Argo 1.0" "2022-1" "pastilha de freio" (by decide)).2.1⟩

/-! ### Claim C5 -/

/-- Claim C5 is false on the code: the total accumulates the UNROUNDED mean
(here 4/3), while the reports carry the rounded value (1.33); the two sums
differ. -/
theorem C5_counterexample :
    total_pecas oracleC5 "Argo 1.0" "2022-1" ["pastilha de freio"] ≠
      ((relatorio oracleC5 "Argo 1.0" "2022-1" ["pastilha de freio"]).map Report.abatido).sum := by
  have hne : cardsForPart oracleC5 "Argo 1.0" "2022-1" "pastilha de freio" ≠ [] := by decide
  have hc : cardsForPart oracleC5 "Argo 1.0" "2022-1" "pastilha de freio" =
      [cardC5a, cardC5a, cardC5b] := by decide
  have hpm : precoMedioPart oracleC5 "Argo 1.0" "2022-1" "pastilha de freio" = 4 / 3 := by
    rw [precoMedioPart, if_neg hne, hc]
    simp [cardC5a, cardC5b]
    norm_num
  have hround : pyRound2 (4 / 3) = 133 / 100 := by
    have := pyRound2_exact (4 / 3) 133 (by norm_num) (by norm_num) (by norm_num)
    rw [this]; norm_num
  rw [total_pecas, relatorio]
  simp only [List.map_cons, List.map_nil, List.sum_cons, List.sum_nil, hpm]
  rw [reportForPart, if_neg hne]
  simp only [hpm, hround]
  norm_num

/-- Claim C5 amended: the total deduction is the sum over parts of the
UNROUNDED per-part means; failed parts contribute exactly 0; each successful
part's reported (rounded) value is the rounding of its contribution, so the
total need not equal the sum of the reported values. -/
theorem C5_amended (search : String → List Card) (modeloNome ano : String)
    (pecas : List String) :
    total_pecas search modeloNome ano pecas =
      (pecas.map (precoMedioPart search modeloNome ano)).sum ∧
    (∀ p, cardsForPart search modeloNome ano p = [] →
      precoMedioPart search modeloNome ano p = 0) ∧
    (∀ p, cardsForPart search modeloNome ano p ≠ [] →
      (reportForPart search modeloNome ano p).abatido =
        pyRound2 (precoMedioPart search modeloNome ano p)) := by
  refine ⟨rfl, fun p hp => ?_, fun p hp => ?_⟩
  · rw [precoMedioPart, if_pos hp]
  · rw [reportForPart, if_neg hp]

/-- Witness for C5_amended at a concrete provider. -/
theorem C5_amended_witness :
    cardsForPart oracleC5 "Argo 1.0" "2022-1" "pastilha de freio" ≠ [] ∧
    (reportForPart oracleC5 "Argo 1.0" "2022-1" "pastilha de freio").abatido =
      pyRound2 (precoMedioPart oracleC5 "Argo 1.0" "2022-1" "pastilha de freio") :=
  ⟨by decide,
    (C5_amended oracleC5 "Argo 1.0" "2022-1" ["pastilha de freio"]).2.2
      "pastilha de freio" (by decide)⟩

/-! ### Claim C4 -/

/-- Claim C4: the part loop (modelled over an arbitrary provider) emits
exactly one report per requested part, in the caller's order; a part whose
fallback ladder is exhausted gets the zero report, and a transport error
from the provider yields zero candidates for that keyword — no failure
aborts the batch or touches another part's report (each report is a function
of its own part only).  The loop is sequential in the code, so the input
order is preserved independently of response timing; the hypothesis on
`modeloNome` excludes the model-less `IndexError` path handled outside the
loop. -/
theorem C4_aggregate_complete (provider : String → Except String (List ShopeeNode))
    (modeloNome ano : String) (pecas : List String)
    (hm : pySplit modeloNome ≠ []) (hp : pecas ≠ []) :
    (relatorio (searchOf provider) modeloNome ano pecas).length = pecas.length ∧
    (∀ i : ℕ, (relatorio (searchOf provider) modeloNome ano pecas)[i]? =
      (pecas[i]?).map (reportForPart (searchOf provider) modeloNome ano)) ∧
    (∀ p, cardsForPart (searchOf provider) modeloNome ano p = [] →
      reportForPart (searchOf provider) modeloNome ano p = ⟨p, 0, 0, []⟩) ∧
    (∀ kw e, provider kw = Except.error e → searchOf provider kw = []) := by
  refine ⟨by simp [relatorio], fun i => by simp [relatorio], fun p hp0 => ?_, fun kw e he => ?_⟩
  · rw [reportForPart, if_pos hp0]
  · rw [searchOf, he]
    rfl

/-- Witness for C4_aggregate_complete: one part, provider always failing. -/
theorem C4_witness :
    pySplit "Argo 1.0" ≠ [] ∧ (["pastilha de freio"] : List String) ≠ [] ∧
    (relatorio (searchOf (fun _ => Except.error "down")) "Argo 1.0" "2022-1"
      ["pastilha de freio"]).length = (["pastilha de freio"] : List String).length :=
  ⟨by decide, by decide,
    (C4_aggregate_complete (fun _ => Except.error "down") "Argo 1.0" "2022-1"
      ["pastilha de freio"] (by decide) (by decide)).1⟩

/-! ### Claim C10 -/

/-- Claim C10: in every emitted report the deducted amount equals the
representative price (both are `round(preco_medio, 2)` on success), and a
failed part has both equal to 0 with an empty card list. -/
theorem C10_report_fields (search : String → List Card) (modeloNome ano : String)
    (pecas : List String) :
    ∀ r ∈ relatorio search modeloNome ano pecas,
      r.abatido = r.preco_medio ∧ (r.cards = [] → r.preco_medio = 0 ∧ r.abatido = 0) := by
  intro r hr
  rw [relatorio] at hr
  obtain ⟨p, hp, rfl⟩ := List.mem_map.mp hr
  by_cases h : cardsForPart search modeloNome ano p = []
  · rw [reportForPart, if_pos h]
    exact ⟨rfl, fun _ => ⟨rfl, rfl⟩⟩
  · rw [reportForPart, if_neg h]
    obtain ⟨c, cs, hcons⟩ := List.exists_cons_of_ne_nil h
    refine ⟨rfl, fun hcards => ?_⟩
    rw [show (⟨p, pyRound2 (precoMedioPart search modeloNome ano p),
        pyRound2 (precoMedioPart search modeloNome ano p),
        (cardsForPart search modeloNome ano p).take 3⟩ : Report).cards =
      (cardsForPart search modeloNome ano p).take 3 from rfl, hcons] at hcards
    simp at hcards

/-- Witness for C10_report_fields at a concrete provider. -/
theorem C10_witness :
    reportForPart oracleC2 "Argo 1.0" "2022-1" "pastilha de freio" ∈
      relatorio oracleC2 "Argo 1.0" "2022-1" ["pastilha de freio"] ∧
    (reportForPart oracleC2 "Argo 1.0" "2022-1" "pastilha de freio").abatido =
      (reportForPart oracleC2 "Argo 1.0" "2022-1" "pastilha de freio").preco_medio :=
  ⟨by simp [relatorio],
    (C10_report_fields oracleC2 "Argo 1.0" "2022-1" ["pastilha de freio"]
      (reportForPart oracleC2 "Argo 1.0" "2022-1" "pastilha de freio")
      (by simp [relatorio])).1⟩

/-! ### Claim C6 -/

/-- Claim C6 is false on the code: there is no part-price cache at all (the
single `TTLCache` holds only FIPE reference values), so a second identical
invocation still sends its part searches to the provider. -/
theorem C6_counterexample :
    (pecas_endpoint 50000 oracleC6
        (pecas_endpoint 50000 oracleC6 ⟨[]⟩ (some "001") "Argo 1.0" "2022-1"
          "pastilha de freio").2
        (some "001") "Argo 1.0" "2022-1" "pastilha de freio").1.search_calls ≠ [] := by
  decide

/-- Claim C6 amended: the code has exactly one cache,
`TTLCache(maxsize=100, ttl=3600)`, used only for FIPE reference values.
Within one TTL window a second identical invocation hits that cache (no
second FIPE network call) but re-issues every part search; with an unchanged
provider it produces the same query list and the same reports. -/
theorem C6_amended (fp : ℚ) (search : String → List Card) (code modelo ano pecas : String) :
    cache_maxsize = 100 ∧ cache_ttl = 3600 ∧
    (pecas_endpoint fp search
        (pecas_endpoint fp search ⟨[]⟩ (some code) modelo ano pecas).2
        (some code) modelo ano pecas).1.fipe_network_call = false ∧
    (pecas_endpoint fp search
        (pecas_endpoint fp search ⟨[]⟩ (some code) modelo ano pecas).2
        (some code) modelo ano pecas).1.search_calls =
      (pecas_endpoint fp search ⟨[]⟩ (some code) modelo ano pecas).1.search_calls ∧
    (pecas_endpoint fp search
        (pecas_endpoint fp search ⟨[]⟩ (some code) modelo ano pecas).2
        (some code) modelo ano pecas).1.relatorio_detalhado =
      (pecas_endpoint fp search ⟨[]⟩ (some code) modelo ano pecas).1.relatorio_detalhado := by
  refine ⟨rfl, rfl, ?_, rfl, rfl⟩
  simp only [pecas_endpoint]
  exact fipe_lookup_after fp fp ⟨[]⟩ (code ++ "-" ++ ano)

/-! ### Claim C7 -/

/-- Case analysis of the non-tire keyword list: every entry is one of the
three label variants followed by the model's first word, optionally followed
by the base year. -/
lemma keywords_tentativas_shape (peca modeloNome ano : String)
    (h : pyStartsWith (pyLower peca) "kit pneus" = false) :
    ∀ kw ∈ keywords_tentativas peca modeloNome ano,
      ∃ base, (base = peca ∨ base = stripKit peca ∨
          base = to_singular_words (stripKit peca)) ∧
        (kw = base ++ " " ++ modelo_basico_of modeloNome ++ " " ++ base_ano_of ano ∨
         kw = base ++ " " ++ modelo_basico_of modeloNome) := by
  intro kw hkw
  rw [keywords_tentativas, if_neg (by simp [h])] at hkw
  have hkw' := List.mem_of_mem_take hkw
  rcases List.mem_append.mp hkw' with h1 | h1
  · rcases List.mem_append.mp h1 with h2 | h2
    · simp only [List.mem_cons, List.not_mem_nil, or_false] at h2
      rcases h2 with rfl | rfl
      · exact ⟨peca, Or.inl rfl, Or.inl rfl⟩
      · exact ⟨peca, Or.inl rfl, Or.inr rfl⟩
    · by_cases hc : stripKit peca ≠ peca
      · rw [if_pos hc] at h2
        simp only [List.mem_cons, List.not_mem_nil, or_false] at h2
        rcases h2 with rfl | rfl
        · exact ⟨stripKit peca, Or.inr (Or.inl rfl), Or.inl rfl⟩
        · exact ⟨stripKit peca, Or.inr (Or.inl rfl), Or.inr rfl⟩
      · rw [if_neg hc] at h2
        exact absurd h2 (List.not_mem_nil kw)
  · by_cases hc : to_singular_words (stripKit peca) ≠ peca ∧
        to_singular_words (stripKit peca) ≠ stripKit peca
    · rw [if_pos hc] at h1
      simp only [List.mem_cons, List.not_mem_nil, or_false] at h1
      rcases h1 with rfl | rfl
      · exact ⟨to_singular_words (stripKit peca), Or.inr (Or.inr rfl), Or.inl rfl⟩
      · exact ⟨to_singular_words (stripKit peca), Or.inr (Or.inr rfl), Or.inr rfl⟩
    · rw [if_neg hc] at h1
      exact absurd h1 (List.not_mem_nil kw)

/-- Claim C7: a part whose label starts with `"kit pneus"` (the tire-kit
labels, which already carry the resolved size) is searched with exactly its
label — no make, model or year appended and no other keyword ever sent —
while every keyword of a non-tire part appends the model's first word and
optionally the base year to one of the label variants. -/
theorem C7_tire_keyword (search : String → List Card) (peca modeloNome ano : String) :
    (pyStartsWith (pyLower peca) "kit pneus" = true →
      keywords_tentativas peca modeloNome ano = [peca] ∧
      (tryKeywords search (keywords_tentativas peca modeloNome ano)).2 = [peca]) ∧
    (pyStartsWith (pyLower peca) "kit pneus" = false →
      ∀ kw ∈ keywords_tentativas peca modeloNome ano,
        ∃ base, (base = peca ∨ base = stripKit peca ∨
            base = to_singular_words (stripKit peca)) ∧
          (kw = base ++ " " ++ modelo_basico_of modeloNome ++ " " ++ base_ano_of ano ∨
           kw = base ++ " " ++ modelo_basico_of modeloNome)) := by
  constructor
  · intro h
    have hk : keywords_tentativas peca modeloNome ano = [peca] := by
      rw [keywords_tentativas, if_pos h]
    refine ⟨hk, ?_⟩
    rw [hk]
    by_cases hs : search peca = [] <;> simp [tryKeywords, hs]
  · exact keywords_tentativas_shape peca modeloNome ano

/-- Witness for C7_tire_keyword: a tire-kit label with a resolved size. -/
theorem C7_witness :
    pyStartsWith (pyLower "kit pneus 175/65 R14 82T") "kit pneus" = true ∧
    keywords_tentativas "kit pneus 175/65 R14 82T" "Argo 1.0" "2022-1" =
      ["kit pneus 175/65 R14 82T"] :=
  ⟨by decide,
    ((C7_tire_keyword (fun _ => []) "kit pneus 175/65 R14 82T" "Argo 1.0" "2022-1").1
      (by decide)).1⟩

/-! ### Claim C8 -/

/-- Claim C8: for a non-tire part whose kit-stripped and singularized
variants are genuinely new, the ladder is exactly label+model+year,
label+model, then the same pair kit-stripped, then the same pair
singularized, in that order; the traversal queries exactly the failing
prefix plus the first succeeding keyword, and returns that keyword's
candidates (all keywords, and the empty result, if none succeeds). -/
theorem C8_fallback_ladder (search : String → List Card) (peca modeloNome ano : String)
    (h1 : pyStartsWith (pyLower peca) "kit pneus" = false)
    (h2 : stripKit peca ≠ peca)
    (h3 : to_singular_words (stripKit peca) ≠ peca ∧
      to_singular_words (stripKit peca) ≠ stripKit peca) :
    keywords_tentativas peca modeloNome ano =
      [peca ++ " " ++ modelo_basico_of modeloNome ++ " " ++ base_ano_of ano,
       peca ++ " " ++ modelo_basico_of modeloNome,
       stripKit peca ++ " " ++ modelo_basico_of modeloNome ++ " " ++ base_ano_of ano,
       stripKit peca ++ " " ++ modelo_basico_of modeloNome,
       to_singular_words (stripKit peca) ++ " " ++ modelo_basico_of modeloNome ++ " " ++
         base_ano_of ano,
       to_singular_words (stripKit peca) ++ " " ++ modelo_basico_of modeloNome] ∧
    (tryKeywords search (keywords_tentativas peca modeloNome ano)).2 =
      (keywords_tentativas peca modeloNome ano).takeWhile (fun k => decide (search k = [])) ++
      ((keywords_tentativas peca modeloNome ano).dropWhile
        (fun k => decide (search k = []))).take 1 ∧
    (tryKeywords search (keywords_tentativas peca modeloNome ano)).1 =
      ((((keywords_tentativas peca modeloNome ano).dropWhile
        (fun k => decide (search k = []))).head?).map search).getD [] := by
  refine ⟨?_, tryKeywords_queried search _, tryKeywords_cards search _⟩
  simp [keywords_tentativas, h1, h2, h3]

/-- Witness for C8_fallback_ladder: `"kit pastilhas"` has distinct
kit-stripped and singular variants; a provider succeeding on the third rung
is queried exactly three times. -/
theorem C8_witness :
    pyStartsWith (pyLower "kit pastilhas") "kit pneus" = false ∧
    stripKit "kit pastilhas" ≠ "kit pastilhas" ∧
    (to_singular_words (stripKit "kit pastilhas") ≠ "kit pastilhas" ∧
      to_singular_words (stripKit "kit pastilhas") ≠ stripKit "kit pastilhas") ∧
    keywords_tentativas "kit pastilhas" "Argo 1.0" "2022-1" =
      ["kit pastilhas Argo 2022", "kit pastilhas Argo", "pastilhas Argo 2022",
       "pastilhas Argo", "pastilha Argo 2022", "pastilha Argo"] :=
  ⟨by decide, by decide, by decide,
    (C8_fallback_ladder (fun _ => []) "kit pastilhas" "Argo 1.0" "2022-1"
      (by decide) (by decide) (by decide)).1⟩

/-! ### Claim C9 -/

lemma maxScore_cons (hint c : String) (rest : List String) :
    maxScore hint (c :: rest) = max (scoreOf hint c) (maxScore hint rest) := rfl

lemma scoreOf_le_maxScore (hint : String) :
    ∀ {cands : List String} {t : String}, t ∈ cands →
      scoreOf hint t ≤ maxScore hint cands := by
  intro cands
  induction cands with
  | nil => intro t ht; exact absurd ht (List.not_mem_nil t)
  | cons c rest ih =>
    intro t ht
    rcases List.mem_cons.mp ht with rfl | hm
    · rw [maxScore_cons]; exact le_max_left _ _
    · rw [maxScore_cons]; exact le_trans (ih hm) (le_max_right _ _)

lemma maxScore_eq_zero (hint : String) {cands : List String}
    (h : ∀ u ∈ cands, scoreOf hint u = 0) : maxScore hint cands = 0 := by
  induction cands with
  | nil => rfl
  | cons c rest ih =>
    rw [maxScore_cons, h c (List.mem_cons_self c rest),
      ih (fun u hu => h u (List.mem_cons_of_mem c hu))]
    rfl

/-- When the hint is nonempty and some candidate is an exact lowercased
match, the loop breaks at the first such candidate whatever the running
best/score accumulator holds. -/
lemma selectTrimLoop_exact (hint t : String) :
    ∀ (cands : List String) (b : Option String) (sc : ℕ), hint ≠ "" →
      cands.find? (fun c => pyLower c == hint) = some t →
      (selectTrimLoop hint cands b sc).1 = some t := by
  intro cands
  induction cands with
  | nil => intro b sc h hf; simp at hf
  | cons c rest ih =>
    intro b sc h hf
    by_cases hc : pyLower c = hint
    · rw [List.find?_cons_of_pos _ (by simp [hc])] at hf
      injection hf with hf
      subst hf
      simp only [selectTrimLoop]
      rw [if_pos ⟨h, hc⟩]
    · rw [List.find?_cons_of_neg _ (by simp [hc])] at hf
      simp only [selectTrimLoop]
      rw [if_neg (fun hand => hc hand.2)]
      by_cases hsc : hint ≠ "" ∧ sc < scoreOf hint c
      · rw [if_pos hsc]; exact ih _ _ h hf
      · rw [if_neg hsc]; exact ih _ _ h hf

/-- When the hint is nonempty and no candidate matches exactly, the loop
never sets `veiculo_correto`; its best-match accumulator is left alone if no
candidate beats the incoming score, and otherwise ends at a candidate whose
score is the maximum. -/
lemma selectTrimLoop_fuzzy (hint : String) :
    ∀ (cands : List String) (b : Option String) (sc : ℕ), hint ≠ "" →
      (∀ c ∈ cands, pyLower c ≠ hint) →
      (selectTrimLoop hint cands b sc).1 = none ∧
      (maxScore hint cands ≤ sc → (selectTrimLoop hint cands b sc).2.1 = b) ∧
      (sc < maxScore hint cands →
        ∃ t ∈ cands, (selectTrimLoop hint cands b sc).2.1 = some t ∧
          scoreOf hint t = maxScore hint cands) := by
  intro cands
  induction cands with
  | nil =>
    intro b sc h hx
    exact ⟨rfl, fun _ => rfl, fun hlt => absurd hlt (by simp [maxScore])⟩
  | cons c rest ih =>
    intro b sc h hx
    have hc : pyLower c ≠ hint := hx c (List.mem_cons_self c rest)
    have hxr : ∀ u ∈ rest, pyLower u ≠ hint := fun u hu => hx u (List.mem_cons_of_mem c hu)
    simp only [selectTrimLoop]
    rw [if_neg (fun hand => hc hand.2)]
    by_cases hsc : sc < scoreOf hint c
    · rw [if_pos ⟨h, hsc⟩]
      obtain ⟨ih1, ih2, ih3⟩ := ih (some c) (scoreOf hint c) h hxr
      refine ⟨ih1, fun hle => ?_, fun _ => ?_⟩
      · exfalso
        rw [maxScore_cons] at hle
        exact absurd (le_trans (le_max_left (scoreOf hint c) (maxScore hint rest)) hle)
          (Nat.not_le.mpr hsc)
      · by_cases hrest : maxScore hint rest ≤ scoreOf hint c
        · refine ⟨c, List.mem_cons_self c rest, ih2 hrest, ?_⟩
          rw [maxScore_cons]
          exact (max_eq_left hrest).symm
        · push_neg at hrest
          obtain ⟨t, ht, hbt, hst⟩ := ih3 hrest
          refine ⟨t, List.mem_cons_of_mem c ht, hbt, ?_⟩
          rw [maxScore_cons, hst]
          exact (max_eq_right (le_of_lt hrest)).symm
    · rw [if_neg (fun hand => hsc hand.2)]
      obtain ⟨ih1, ih2, ih3⟩ := ih b sc h hxr
      have hcs : scoreOf hint c ≤ sc := Nat.not_lt.mp hsc
      refine ⟨ih1, fun hle => ih2 ?_, fun hlt => ?_⟩
      · rw [maxScore_cons] at hle
        exact le_trans (le_max_right _ _) hle
      · rw [maxScore_cons] at hlt
        have hr : sc < maxScore hint rest := by
          by_cases hmr : maxScore hint rest ≤ scoreOf hint c
          · rw [max_eq_left hmr] at hlt
            exact absurd hlt hsc
          · push_neg at hmr
            rwa [max_eq_right (le_of_lt hmr)] at hlt
        obtain ⟨t, ht, hbt, hst⟩ := ih3 hr
        refine ⟨t, List.mem_cons_of_mem c ht, hbt, ?_⟩
        rw [maxScore_cons, hst]
        exact (max_eq_right (le_of_lt (lt_of_le_of_lt hcs hr))).symm

/-- With an empty hint both guards of the loop are disabled. -/
lemma selectTrimLoop_empty_hint :
    ∀ (cands : List String) (b : Option String) (sc : ℕ),
      selectTrimLoop "" cands b sc = (none, b, sc) := by
  intro cands
  induction cands with
  | nil => intro b sc; rfl
  | cons c rest ih =>
    intro b sc
    simp only [selectTrimLoop]
    rw [if_neg (fun hand => hand.1 rfl), if_neg (fun hand => hand.1 rfl)]
    exact ih b sc

/-- Claim C9: with a hint present, the first exact case-insensitive match is
selected immediately; with no exact match, a candidate of maximal
whitespace-token overlap with the hint is selected as soon as some candidate
scores nonzero; and with an empty hint, or when every candidate scores zero,
the first candidate in provider order is selected. -/
theorem C9_trim_selection (hint : String) (cands : List String) :
    (∀ t, hint ≠ "" → cands.find? (fun c => pyLower c == hint) = some t →
      selectTrim hint cands = some t) ∧
    (hint ≠ "" → (∀ c ∈ cands, pyLower c ≠ hint) →
      (∃ t ∈ cands, 0 < scoreOf hint t) →
      ∃ t, selectTrim hint cands = some t ∧ t ∈ cands ∧
        ∀ u ∈ cands, scoreOf hint u ≤ scoreOf hint t) ∧
    ((hint = "" ∨ ((∀ c ∈ cands, pyLower c ≠ hint) ∧ ∀ u ∈ cands, scoreOf hint u = 0)) →
      selectTrim hint cands = cands.head?) := by
  refine ⟨fun t h hf => ?_, fun h hx hex => ?_, fun hcase => ?_⟩
  · have h1 := selectTrimLoop_exact hint t cands none 0 h hf
    rcases hE : selectTrimLoop hint cands none 0 with ⟨vc, bb, ss⟩
    rw [hE] at h1
    change vc = some t at h1
    subst h1
    simp [selectTrim, hE]
  · obtain ⟨t0, ht0, hs0⟩ := hex
    obtain ⟨ih1, ih2, ih3⟩ := selectTrimLoop_fuzzy hint cands none 0 h hx
    have hmax : 0 < maxScore hint cands := lt_of_lt_of_le hs0 (scoreOf_le_maxScore hint ht0)
    obtain ⟨t, ht, hbt, hst⟩ := ih3 hmax
    rcases hE : selectTrimLoop hint cands none 0 with ⟨vc, bb, ss⟩
    rw [hE] at ih1 hbt
    change vc = none at ih1
    subst ih1
    change bb = some t at hbt
    subst hbt
    refine ⟨t, ?_, ht, fun u hu => ?_⟩
    · simp [selectTrim, hE]
    · rw [hst]
      exact scoreOf_le_maxScore hint hu
  · rcases hcase with rfl | ⟨hx, hz⟩
    · have hE := selectTrimLoop_empty_hint cands none 0
      simp [selectTrim, hE]
    · by_cases h : hint = ""
      · subst h
        have hE := selectTrimLoop_empty_hint cands none 0
        simp [selectTrim, hE]
      · obtain ⟨ih1, ih2, ih3⟩ := selectTrimLoop_fuzzy hint cands none 0 h hx
        have hms : maxScore hint cands = 0 := maxScore_eq_zero hint hz
        have hb := ih2 (by rw [hms])
        rcases hE : selectTrimLoop hint cands none 0 with ⟨vc, bb, ss⟩
        rw [hE] at ih1 hb
        change vc = none at ih1
        subst ih1
        change bb = none at hb
        subst hb
        simp [selectTrim, hE]

/-- Witness for C9_trim_selection: an exact case-insensitive match is
selected over an earlier fuzzy candidate. -/
theorem C9_witness :
    ("gol 1.0" : String) ≠ "" ∧
    (["fox 1.6", "Gol 1.0"] : List String).find? (fun c => pyLower c == "gol 1.0") =
      some "Gol 1.0" ∧
    selectTrim "gol 1.0" ["fox 1.6", "Gol 1.0"] = some "Gol 1.0" :=
  ⟨by decide, by decide,
    (C9_trim_selection "gol 1.0" ["fox 1.6", "Gol 1.0"]).1 "Gol 1.0" (by decide) (by decide)⟩

end ApiFipe
